import Mathlib


/-!
Shallow embedding of the gitauto agent orchestration core:
services/openai/commit_changes.py (chat_with_agent),
services/openai/openai_agent.py (wait_on_run, call_function),
services/webhook_handler.py (handle_gitauto) and
services/github/pulls_manager.py (get_pull_request_files).

External collaborators (the chat-completion provider, the GitHub REST
client, the Supabase run registry, token counting) are modelled as oracle
parameters: the provider response for a turn is an input, remote side
effects are recorded in an explicit action trace.
-/

namespace GitAuto

/-- The mode argument of chat_with_agent (commit_changes.py line 41):
it selects the system instruction and the visible tool subset sent to the
provider; since the provider is an oracle here, the mode is threaded but
does not influence the modelled state transitions. -/
inductive Mode where
  | comment
  | commit
  | explore
  | get
deriving DecidableEq, Repr

/-- One tool call of the provider response (ChatCompletionMessageToolCall):
an id, a function name, and the parsed JSON arguments. The argument type is
a parameter with decidable structural equality, matching the dict equality
the source uses for dedup. -/
structure ToolCall (Args : Type) where
  id : String
  name : String
  arguments : Args
deriving DecidableEq, Repr

/-- The assistant message of the chosen completion (choice.message):
text content plus the list of requested tool calls; an empty list models
a response with tool_calls None or []. -/
structure AssistantMessage (Args : Type) where
  content : String
  tool_calls : List (ToolCall Args)
deriving DecidableEq, Repr

/-- One conversation entry; tool messages carry the tool_call_id, the tool
name and the stringified result exactly as commit_changes.py lines 109-116
append them. -/
inductive Message (Args : Type) where
  | system (content : String)
  | user (content : String)
  | assistant (content : String) (tool_calls : List (ToolCall Args))
  | tool (tool_call_id : String) (name : String) (content : String)
deriving DecidableEq, Repr

/-- A previous_calls entry (commit_changes.py line 97):
the dict with keys "function" and "args". -/
structure ToolCallRecord (Args : Type) where
  function : String
  args : Args
deriving DecidableEq, Repr

/-- The seven-component return value of chat_with_agent (line 119) plus an
instrumentation field `executed` listing the capability invocations the
turn performed: the source executes tools_to_call[tool_name](...) exactly
where this list gains its one entry (line 103). -/
structure TurnResult (Args : Type) where
  messages : List (Message Args)
  previous_calls : List (ToolCallRecord Args)
  tool_name : Option String
  tool_args : Option Args
  token_input : Nat
  token_output : Nat
  is_done : Bool
  executed : List (ToolCallRecord Args)
deriving DecidableEq, Repr

/-- The single-quote character the f-string of commit_changes.py line 99
puts around the tool name. -/
def sq : String := String.singleton (Char.ofNat 39)

/-- The corrective tool result injected on a duplicate call
(commit_changes.py lines 99-101). -/
def duplicateCallMessage (tool_name : String) : String :=
  "The function " ++ sq ++ tool_name ++ sq ++
    " was called with the same arguments as before, which is non-sense. You must open the file path in your tool args and update your diff content accordingly."

/-- chat_with_agent (commit_changes.py lines 37-119). The provider call is
oracled: `choice_message` is the single completion choice the provider
returned for this turn. `tools_to_call` is the registry (functions.py) with
base_args already applied; `count_tokens` is the token accounting oracle.
Token accounting follows lines 80-81: the input count is over the incoming
message history (without the system message), the output count over the
returned assistant message alone. -/
def chat_with_agent {Args : Type} [DecidableEq Args]
    (tools_to_call : String → Args → String)
    (count_tokens : List (Message Args) → Nat)
    (messages : List (Message Args))
    (mode : Mode)
    (previous_calls : List (ToolCallRecord Args))
    (choice_message : AssistantMessage Args) : TurnResult Args :=
  let token_input := count_tokens messages
  let token_output :=
    count_tokens [Message.assistant choice_message.content choice_message.tool_calls]
  match choice_message.tool_calls with
  | [] =>
    -- Return if no tool calls (lines 84-87)
    ⟨messages, previous_calls, none, none, token_input, token_output, false, []⟩
  | tool_call :: _ =>
    -- Handle multiple tool calls: only tool_calls[0] is used (lines 90-92)
    let tool_call_id := tool_call.id
    let tool_name := tool_call.name
    let tool_args := tool_call.arguments
    let current_call : ToolCallRecord Args := ⟨tool_name, tool_args⟩
    let assistant_message :=
      Message.assistant choice_message.content choice_message.tool_calls
    if current_call ∈ previous_calls then
      -- Duplicate: do not execute, inject the corrective result (lines 98-101)
      let tool_result := duplicateCallMessage tool_name
      ⟨messages ++ [assistant_message,
          Message.tool tool_call_id tool_name tool_result],
        previous_calls, some tool_name, some tool_args,
        token_input, token_output, false, []⟩
    else
      -- Execute, record the call, set is_done (lines 103-105)
      let tool_result := tools_to_call tool_name tool_args
      ⟨messages ++ [assistant_message,
          Message.tool tool_call_id tool_name tool_result],
        previous_calls ++ [current_call], some tool_name, some tool_args,
        token_input, token_output, true, [current_call]⟩

/-- The state a sequence of turns threads: the message history and the
previous_calls dedup list, plus the concatenated instrumentation of all
capability invocations performed across the turns. -/
structure RunResult (Args : Type) where
  messages : List (Message Args)
  previous_calls : List (ToolCallRecord Args)
  executed : List (ToolCallRecord Args)
deriving DecidableEq, Repr

/-- A run of chat_with_agent turns: each turn is given a mode and the
provider response for that turn, and threads messages and previous_calls
to the next turn, as the callers of chat_with_agent do with its return
value. -/
def run_turns {Args : Type} [DecidableEq Args]
    (tools_to_call : String → Args → String)
    (count_tokens : List (Message Args) → Nat) :
    List (Mode × AssistantMessage Args) → List (Message Args) →
    List (ToolCallRecord Args) → RunResult Args
  | [], messages, previous_calls => ⟨messages, previous_calls, []⟩
  | (mode, choice) :: rest, messages, previous_calls =>
    let r := chat_with_agent tools_to_call count_tokens messages mode
      previous_calls choice
    let rr := run_turns tools_to_call count_tokens rest r.messages r.previous_calls
    ⟨rr.messages, rr.previous_calls, r.executed ++ rr.executed⟩

/-- Character-list prefix test used by the substring predicate below. -/
def startsWithChars : List Char → List Char → Bool
  | [], _ => true
  | _ :: _, [] => false
  | a :: as, b :: bs => a == b && startsWithChars as bs

/-- Character-list substring test used to state facts about the corrective
message text. -/
def containsChars (pat : List Char) : List Char → Bool
  | [] => startsWithChars pat []
  | b :: bs => startsWithChars pat (b :: bs) || containsChars pat bs

/-- Whether `pat` occurs as a contiguous substring of `s`. -/
def hasSubstring (s pat : String) : Bool :=
  containsChars pat.data s.data

/-! ## openai_agent.py: call_function and wait_on_run -/

/-- The parsed JSON arguments of an assistant-run tool call, as the string
keyed dict json.loads yields in call_function (openai_agent.py line 150). -/
abbrev CallArgs := List (String × String)

/-- The dict assignment args["token"] = token (openai_agent.py line 151):
replace an existing "token" entry in place, else append one. -/
def setTokenKey (args : CallArgs) (token : String) : CallArgs :=
  if args.any (fun kv => kv.1 == "token") then
    args.map (fun kv => if kv.1 == "token" then ("token", token) else kv)
  else
    args ++ [("token", token)]

/-- The failures call_function can raise (openai_agent.py lines 143-161):
noToolCall for a run without required_action (ValueError "No tool call in
the run."), indexOutOfRange for an empty tool_calls list (an uncaught
IndexError), unknownTool for a name missing from the funcs dict (the
KeyError rewrapped as ValueError "Function not found: ..."), and
toolExecutionError for any failure of the capability itself (rewrapped as
ValueError "Error: ..."). -/
inductive CallFunctionError where
  | noToolCall
  | indexOutOfRange
  | unknownTool (name : String)
  | toolExecutionError (message : String)
deriving DecidableEq, Repr

/-- call_function (openai_agent.py lines 141-161). The funcs registry maps
a name to an optional capability; a capability returns Except to model the
exceptions the underlying remote call may raise. -/
def call_function
    (funcs : String → Option (CallArgs → Except String String))
    (required_action : Option (List (ToolCall CallArgs)))
    (token : String) :
    Except CallFunctionError (ToolCall CallArgs × String) :=
  match required_action with
  | none => .error .noToolCall
  | some tool_calls =>
    match tool_calls with
    | [] => .error .indexOutOfRange
    | tool_call :: _ =>
      let name := tool_call.name
      let args := setTokenKey tool_call.arguments token
      match funcs name with
      | none => .error (.unknownTool name)
      | some f =>
        match f args with
        | .error e => .error (.toolExecutionError e)
        | .ok res => .ok (tool_call, res)

/-- Modelled from the spec: config.OPENAI_FINAL_STATUSES is imported from
config, which is not among the repository files given here. It is the set
of terminal statuses of a provider-side run that the polling loop waits
for ("a fixed polling interval while waiting for an asynchronous
provider-side run to reach a terminal status"); the in-flight statuses
"queued", "in_progress" and "requires_action" are not terminal, since the
loop handles "requires_action" inside its body. -/
def OPENAI_FINAL_STATUSES : List String :=
  ["completed", "failed", "cancelled", "expired"]

/-- The polling loop of wait_on_run (openai_agent.py lines 112-138),
instrumented with fuel. The provider is the oracle `retrieve`: the status
of the k-th runs.retrieve call of line 117 (tool-output submission inside
the requires_action branch only feeds the provider, so it is absorbed into
this oracle). `some status` means the while loop exited with that final
status within `fuel` iterations; `none` means the loop is still running
after `fuel` iterations. The source loop itself has no fuel, turn ceiling
or wall-clock bound: it exits only on a final status. -/
def wait_on_run_loop (final_statuses : List String) (retrieve : Nat → String) :
    Nat → Nat → String → Option String
  | 0, _, status => if status ∈ final_statuses then some status else none
  | fuel + 1, k, status =>
    if status ∈ final_statuses then some status
    else wait_on_run_loop final_statuses retrieve fuel (k + 1) (retrieve k)

/-- The run driven by `retrieve` starting from `status` never leaves the
polling loop: no iteration bound suffices for it to exit. -/
def runNeverLeavesLoop (retrieve : Nat → String) (k : Nat) (status : String) : Prop :=
  ∀ fuel, wait_on_run_loop OPENAI_FINAL_STATUSES retrieve fuel k status = none

/-! ## webhook_handler.py: handle_gitauto -/

/-- The config constants handle_gitauto reads (config.py is not among the
given files, so they stay parameters). -/
structure WebhookConfig where
  productId : String
  issueNumberFormat : String
  prBodyStartsWith : String

/-- The fields handle_gitauto extracts from the labeled payload
(webhook_handler.py lines 67-80). -/
structure LabeledPayload where
  labelName : String
  issueTitle : String
  issueBody : Option String
  issueNumber : Int
  installationId : Int
  ownerType : String
  ownerLogin : String
  repoName : String
  defaultBranch : String

/-- Oracle results of the external collaborators handle_gitauto calls, in
the order it calls them, plus the externally supplied uuid and the
extract_file_name helper (utils/file_manager.py is not among the given
files). -/
structure GitautoEnv where
  token : String
  save_progress_started : Bool
  commentUrl : String
  fileTree : List String
  issueComments : List String
  prBody : String
  diffs : List String
  latestCommitSha : String
  uuid : String
  pullRequestUrl : String
  extractFileName : String → String

/-- One externally visible operation handle_gitauto performs, with the
arguments that identify it. -/
inductive Action where
  | incrementRequestCount (installation_id : Int)
  | getInstallationAccessToken (installation_id : Int)
  | addReactionToIssue (owner repo : String) (issue_number : Int) (content : String)
  | saveProgressStarted (unique_issue_id : String) (installation_id : Int)
  | createComment (owner repo : String) (issue_number : Int) (body : String)
  | getRemoteFileTree (owner repo ref : String)
  | getIssueComments (owner repo : String) (issue_number : Int)
  | writePrBody (issue_title issue_body : String)
  | runAssistant (file_paths : List String) (issue_title issue_body : String)
      (issue_comments : List String) (owner ref repo : String)
  | updateProgress (unique_issue_id : String) (progress : Int)
  | updateComment (comment_url body : String)
  | getLatestRemoteCommitSha (owner repo branch : String)
  | createRemoteBranch (branch_name owner repo sha : String)
  | commitChangesToRemoteBranch (branch file_path diff : String)
  | createPullRequest (base head title : String)
  | incrementCompletedCount (installation_id : Int)
deriving DecidableEq, Repr

/-- Whether the action runs the agent. -/
def Action.isRunAssistant : Action → Bool
  | .runAssistant .. => true
  | _ => false

/-- Whether the action creates a remote branch. -/
def Action.isCreateRemoteBranch : Action → Bool
  | .createRemoteBranch .. => true
  | _ => false

/-- Whether the action commits changes to a remote branch. -/
def Action.isCommitChanges : Action → Bool
  | .commitChangesToRemoteBranch .. => true
  | _ => false

/-- Whether the action creates a pull request. -/
def Action.isCreatePullRequest : Action → Bool
  | .createPullRequest .. => true
  | _ => false

/-- handle_gitauto (webhook_handler.py lines 65-225): the trace of external
operations it performs, in order, and the value it returns (the dict of
line 104 is modelled by its message). -/
def handle_gitauto (cfg : WebhookConfig) (env : GitautoEnv)
    (payload : LabeledPayload) (trigger : String) : List Action × Option String :=
  -- Extract label and validate it (line 67)
  if trigger == "label" && payload.labelName != cfg.productId then ([], none)
  else
    let issue_title := payload.issueTitle
    let issue_body := (payload.issueBody).getD ""
    let issue_number := payload.issueNumber
    let installation_id := payload.installationId
    let owner_type := payload.ownerType.take 1
    let owner := payload.ownerLogin
    let repo_name := payload.repoName
    let base_branch := payload.defaultBranch
    let unique_issue_id :=
      owner_type ++ "/" ++ owner ++ "/" ++ repo_name ++ "#" ++ toString issue_number
    let pre : List Action :=
      [.incrementRequestCount installation_id,
       .getInstallationAccessToken installation_id,
       .addReactionToIssue owner repo_name issue_number "eyes",
       .saveProgressStarted unique_issue_id installation_id]
    -- Start progress; bail out if the issue is already in progress (lines 94-104)
    if !env.save_progress_started then
      (pre ++ [.createComment owner repo_name issue_number
          "The issue is already in progress. Please wait for the previous request to complete."],
       some "The issue is already in progress.")
    else
      let comment_url := env.commentUrl
      let new_branch :=
        cfg.productId ++ cfg.issueNumberFormat ++ toString issue_number ++ "-" ++ env.uuid
      let commits := env.diffs.map fun diff =>
        Action.commitChangesToRemoteBranch new_branch (env.extractFileName diff) diff
      (pre ++
        [.createComment owner repo_name issue_number
            "![X](https://progress-bar.dev/0/?title=Progress&width=800)\nGitAuto just started crafting a pull request.",
         .getRemoteFileTree owner repo_name base_branch,
         .getIssueComments owner repo_name issue_number,
         .writePrBody issue_title issue_body,
         .runAssistant env.fileTree issue_title issue_body env.issueComments
           owner base_branch repo_name,
         .updateProgress unique_issue_id 50,
         .updateComment comment_url
           "![X](https://progress-bar.dev/50/?title=Progress&width=800)\nHalf way there!",
         .getLatestRemoteCommitSha owner repo_name base_branch,
         .createRemoteBranch new_branch owner repo_name env.latestCommitSha]
        ++ commits ++
        [.createPullRequest base_branch new_branch
            ("Fix " ++ issue_title ++ " with " ++ cfg.productId ++ " model"),
         .updateComment comment_url
           ("Pull request completed! Check it out here " ++ env.pullRequestUrl ++ " 🚀"),
         .incrementCompletedCount installation_id,
         .updateProgress unique_issue_id 100],
       none)

/-! ## pulls_manager.py: get_pull_request_files -/

/-- One entry of a list-pull-request-files response page: filename and
status are always present in the GitHub response, patch is optional
(pulls_manager.py line 35 skips entries without it). -/
structure PullFile where
  filename : String
  status : String
  patch : Option String
deriving DecidableEq, Repr

/-- One element of the returned changes list (pulls_manager.py line 38). -/
structure FileChange where
  filename : String
  status : String
  patch : String
deriving DecidableEq, Repr

/-- The per-file step of the page loop (lines 34-38): skip a file without
a patch, otherwise keep its filename, status and patch. -/
def toFileChange (f : PullFile) : Option FileChange :=
  match f.patch with
  | none => none
  | some p => some ⟨f.filename, f.status, p⟩

/-- The while loop of get_pull_request_files (lines 25-39) over the page
responses: the list element k is the response to the request for page k+1
(an error value models a raised exception, which the handle_exceptions
decorator turns into the default return value None); past the end of the
list every page is empty. -/
def get_pull_request_files_loop :
    List FileChange → List (Except String (List PullFile)) → Option (List FileChange)
  | changes, [] => some changes
  | _, .error _ :: _ => none
  | changes, .ok files :: rest =>
    if files.isEmpty then some changes
    else get_pull_request_files_loop (changes ++ files.filterMap toFileChange) rest

/-- get_pull_request_files (pulls_manager.py lines 19-40): run the page
loop starting from the empty changes list. -/
def get_pull_request_files
    (pages : List (Except String (List PullFile))) : Option (List FileChange) :=
  get_pull_request_files_loop [] pages

/-- Follows the claim wording, for comparison with the source embedding:
one {filename, status, patch} entry per file entry that has a patch,
preserving page order, skipping entries without a patch, stopping at the
first empty page, and None as soon as a request raises. -/
def get_pull_request_files_described :
    List (Except String (List PullFile)) → Option (List FileChange)
  | [] => some []
  | .error _ :: _ => none
  | .ok [] :: _ => some []
  | .ok files :: rest =>
    (get_pull_request_files_described rest).map
      (fun cs => files.filterMap toFileChange ++ cs)

end GitAuto

namespace GitAuto

/-- A turn appends to previous_calls exactly the records it executed. -/
theorem chat_with_agent_previous_calls_eq {Args : Type} [DecidableEq Args]
    (tools_to_call : String → Args → String)
    (count_tokens : List (Message Args) → Nat)
    (messages : List (Message Args)) (mode : Mode)
    (previous_calls : List (ToolCallRecord Args))
    (choice : AssistantMessage Args) :
    (chat_with_agent tools_to_call count_tokens messages mode previous_calls choice).previous_calls
      = previous_calls ++
        (chat_with_agent tools_to_call count_tokens messages mode previous_calls choice).executed := by
  obtain ⟨c, tcs⟩ := choice
  cases tcs with
  | nil => simp [chat_with_agent]
  | cons tc rest =>
    by_cases h : (⟨tc.name, tc.arguments⟩ : ToolCallRecord Args) ∈ previous_calls <;>
      simp [chat_with_agent, h]

/-- A record executed in a turn was not in the dedup list before the turn. -/
theorem chat_with_agent_executed_fresh {Args : Type} [DecidableEq Args]
    (tools_to_call : String → Args → String)
    (count_tokens : List (Message Args) → Nat)
    (messages : List (Message Args)) (mode : Mode)
    (previous_calls : List (ToolCallRecord Args))
    (choice : AssistantMessage Args) :
    ∀ cc ∈ (chat_with_agent tools_to_call count_tokens messages mode previous_calls choice).executed,
      cc ∉ previous_calls := by
  obtain ⟨c, tcs⟩ := choice
  cases tcs with
  | nil => simp [chat_with_agent]
  | cons tc rest =>
    by_cases h : (⟨tc.name, tc.arguments⟩ : ToolCallRecord Args) ∈ previous_calls <;>
      simp [chat_with_agent, h]

/-- A turn executes at most one record. -/
theorem chat_with_agent_executed_len {Args : Type} [DecidableEq Args]
    (tools_to_call : String → Args → String)
    (count_tokens : List (Message Args) → Nat)
    (messages : List (Message Args)) (mode : Mode)
    (previous_calls : List (ToolCallRecord Args))
    (choice : AssistantMessage Args) :
    (chat_with_agent tools_to_call count_tokens messages mode previous_calls choice).executed.length ≤ 1 := by
  obtain ⟨c, tcs⟩ := choice
  cases tcs with
  | nil => simp [chat_with_agent]
  | cons tc rest =>
    by_cases h : (⟨tc.name, tc.arguments⟩ : ToolCallRecord Args) ∈ previous_calls <;>
      simp [chat_with_agent, h]

/-- Over a run, previous_calls grows exactly by the executed records. -/
theorem run_turns_previous_calls_eq {Args : Type} [DecidableEq Args]
    (tools_to_call : String → Args → String)
    (count_tokens : List (Message Args) → Nat) :
    ∀ (turns : List (Mode × AssistantMessage Args))
      (messages : List (Message Args)) (previous_calls : List (ToolCallRecord Args)),
      (run_turns tools_to_call count_tokens turns messages previous_calls).previous_calls
        = previous_calls ++
          (run_turns tools_to_call count_tokens turns messages previous_calls).executed := by
  intro turns
  induction turns with
  | nil => intro messages previous_calls; simp [run_turns]
  | cons t rest ih =>
    intro messages previous_calls
    obtain ⟨mode, choice⟩ := t
    simp only [run_turns]
    rw [ih, chat_with_agent_previous_calls_eq, List.append_assoc]

/-- Over a run, a Nodup dedup list stays Nodup after appending the run's
executed records. -/
theorem run_turns_nodup {Args : Type} [DecidableEq Args]
    (tools_to_call : String → Args → String)
    (count_tokens : List (Message Args) → Nat) :
    ∀ (turns : List (Mode × AssistantMessage Args))
      (messages : List (Message Args)) (previous_calls : List (ToolCallRecord Args)),
      previous_calls.Nodup →
      (previous_calls ++
        (run_turns tools_to_call count_tokens turns messages previous_calls).executed).Nodup := by
  intro turns
  induction turns with
  | nil => intro messages previous_calls h; simpa [run_turns] using h
  | cons t rest ih =>
    intro messages previous_calls h
    obtain ⟨mode, choice⟩ := t
    simp only [run_turns]
    have hfresh := chat_with_agent_executed_fresh tools_to_call count_tokens
      messages mode previous_calls choice
    have hlen := chat_with_agent_executed_len tools_to_call count_tokens
      messages mode previous_calls choice
    have hprev := chat_with_agent_previous_calls_eq tools_to_call count_tokens
      messages mode previous_calls choice
    have hnodup1 : ((chat_with_agent tools_to_call count_tokens messages mode
        previous_calls choice).previous_calls).Nodup := by
      rw [hprev]
      rcases hexe : (chat_with_agent tools_to_call count_tokens messages mode
          previous_calls choice).executed with _ | ⟨cc, ccs⟩
      · simpa using h
      · have : ccs = [] := by
          have := hlen
          rw [hexe] at this
          simpa using this
        subst this
        have hcc : cc ∉ previous_calls := hfresh cc (by rw [hexe]; simp)
        simp [List.nodup_append, h, hcc]
    have := ih (chat_with_agent tools_to_call count_tokens messages mode
        previous_calls choice).messages
      (chat_with_agent tools_to_call count_tokens messages mode
        previous_calls choice).previous_calls hnodup1
    rw [← List.append_assoc, ← hprev]
    exact this

end GitAuto

namespace GitAuto

/-- containsChars is monotone under prepending: a substring of the suffix
is a substring of the whole. -/
theorem containsChars_append_left (pat : List Char) :
    ∀ (xs ys : List Char), containsChars pat ys = true →
      containsChars pat (xs ++ ys) = true := by
  intro xs
  induction xs with
  | nil => intro ys h; simpa using h
  | cons x xs ih =>
    intro ys h
    simp only [List.cons_append, containsChars, Bool.or_eq_true]
    exact Or.inr (ih ys h)

/-- The corrective duplicate-call message always carries the guidance to
open the file path and update the diff content, whatever the tool name. -/
theorem duplicateCallMessage_guidance (tool_name : String) :
    hasSubstring (duplicateCallMessage tool_name)
      "You must open the file path in your tool args and update your diff content" = true := by
  unfold hasSubstring duplicateCallMessage
  simp only [String.data_append]
  exact containsChars_append_left _ _ _ (by decide)

/-- Claim C1: across any sequence of turns that threads previous_calls from
one turn to the next, starting from the empty dedup list, the final dedup
list is exactly the list of executed capability invocations and contains
no two equal entries; and within any single turn, a requested pair that is
already in previous_calls is not executed (a turn executes its requested
record exactly when it is not in the dedup list). -/
theorem c1_dedup_invariant {Args : Type} [DecidableEq Args]
    (tools_to_call : String → Args → String)
    (count_tokens : List (Message Args) → Nat)
    (turns : List (Mode × AssistantMessage Args))
    (messages0 : List (Message Args)) :
    (run_turns tools_to_call count_tokens turns messages0 []).previous_calls
      = (run_turns tools_to_call count_tokens turns messages0 []).executed
    ∧ (run_turns tools_to_call count_tokens turns messages0 []).executed.Nodup
    ∧ ∀ (messages : List (Message Args)) (mode : Mode)
        (previous_calls : List (ToolCallRecord Args)) (c : String)
        (tc : ToolCall Args) (rest : List (ToolCall Args)),
        (chat_with_agent tools_to_call count_tokens messages mode previous_calls
            ⟨c, tc :: rest⟩).executed
          = if (⟨tc.name, tc.arguments⟩ : ToolCallRecord Args) ∈ previous_calls
            then [] else [⟨tc.name, tc.arguments⟩] := by
  refine ⟨?_, ?_, ?_⟩
  · simpa using run_turns_previous_calls_eq tools_to_call count_tokens turns messages0 []
  · simpa using run_turns_nodup tools_to_call count_tokens turns messages0 [] (by simp)
  · intro messages mode previous_calls c tc rest
    by_cases h : (⟨tc.name, tc.arguments⟩ : ToolCallRecord Args) ∈ previous_calls <;>
      simp [chat_with_agent, h]

/-- The polling loop of wait_on_run never exits while the provider keeps
reporting non-final statuses: no fuel bound suffices. -/
theorem wait_on_run_loop_stuck (final_statuses : List String) (retrieve : Nat → String)
    (hr : ∀ j, retrieve j ∉ final_statuses) :
    ∀ (fuel k : Nat) (status : String), status ∉ final_statuses →
      wait_on_run_loop final_statuses retrieve fuel k status = none := by
  intro fuel
  induction fuel with
  | zero => intro k status h; simp [wait_on_run_loop, h]
  | succ n ih =>
    intro k status h
    simp only [wait_on_run_loop, if_neg h]
    exact ih (k + 1) (retrieve k) (hr k)

/-- Claim C2 (amended): wait_on_run has no turn-count or wall-clock
ceiling; its loop runs until the provider reports a final status, so if
every retrieved status is non-final the loop is still running after any
number of iterations. -/
theorem c2_amended_no_bound (retrieve : Nat → String) (fuel k : Nat) (status : String)
    (h1 : status ∉ OPENAI_FINAL_STATUSES)
    (h2 : ∀ j, retrieve j ∉ OPENAI_FINAL_STATUSES) :
    wait_on_run_loop OPENAI_FINAL_STATUSES retrieve fuel k status = none :=
  wait_on_run_loop_stuck OPENAI_FINAL_STATUSES retrieve h2 fuel k status h1

/-- Witness for C2 (amended): a provider stuck on in_progress keeps the
loop of wait_on_run running past 20 iterations. -/
theorem c2_amended_no_bound_witness :
    wait_on_run_loop OPENAI_FINAL_STATUSES (fun _ => "in_progress") 20 0 "queued" = none :=
  c2_amended_no_bound (fun _ => "in_progress") 20 0 "queued" (by decide)
    (fun _ => show "in_progress" ∉ OPENAI_FINAL_STATUSES by decide)

/-- Counterexample to claim C2 as stated: against a provider that always
reports in_progress, the loop of wait_on_run exits within no iteration
bound whatsoever, so no configured turn ceiling or wall-clock budget makes
it terminate. -/
theorem c2_counterexample : runNeverLeavesLoop (fun _ => "in_progress") 0 "queued" :=
  fun fuel =>
    wait_on_run_loop_stuck OPENAI_FINAL_STATUSES (fun _ => "in_progress")
      (fun _ => show "in_progress" ∉ OPENAI_FINAL_STATUSES by decide) fuel 0 "queued"
      (by decide)

/-- Claim C3 (amended): a turn whose requested pair is already in
previous_calls executes nothing, leaves the dedup list unchanged, returns
done = false, and appends the assistant message followed by the corrective
tool result, whose text tells the model to open the file path in its tool
args and update its diff content. -/
theorem c3_amended_duplicate_turn {Args : Type} [DecidableEq Args]
    (tools_to_call : String → Args → String)
    (count_tokens : List (Message Args) → Nat)
    (messages : List (Message Args)) (mode : Mode)
    (previous_calls : List (ToolCallRecord Args)) (c : String)
    (tc : ToolCall Args) (rest : List (ToolCall Args))
    (h : (⟨tc.name, tc.arguments⟩ : ToolCallRecord Args) ∈ previous_calls) :
    (chat_with_agent tools_to_call count_tokens messages mode previous_calls
        ⟨c, tc :: rest⟩).executed = []
    ∧ (chat_with_agent tools_to_call count_tokens messages mode previous_calls
        ⟨c, tc :: rest⟩).is_done = false
    ∧ (chat_with_agent tools_to_call count_tokens messages mode previous_calls
        ⟨c, tc :: rest⟩).previous_calls = previous_calls
    ∧ (chat_with_agent tools_to_call count_tokens messages mode previous_calls
        ⟨c, tc :: rest⟩).messages
      = messages ++ [Message.assistant c (tc :: rest),
          Message.tool tc.id tc.name (duplicateCallMessage tc.name)]
    ∧ hasSubstring (duplicateCallMessage tc.name)
        "You must open the file path in your tool args and update your diff content" = true := by
  refine ⟨?_, ?_, ?_, ?_, duplicateCallMessage_guidance tc.name⟩ <;>
    simp [chat_with_agent, h]

/-- Witness for C3 (amended): a concrete duplicate get_remote_file_content
request is rejected without execution, without growing the dedup list and
with done = false. -/
theorem c3_amended_duplicate_turn_witness :
    (chat_with_agent (fun _ _ => "ok") (fun _ => 0) ([] : List (Message String)) Mode.get
        [⟨"get_remote_file_content", "a.py"⟩]
        ⟨"", [⟨"call_1", "get_remote_file_content", "a.py"⟩]⟩).executed = []
    ∧ (chat_with_agent (fun _ _ => "ok") (fun _ => 0) ([] : List (Message String)) Mode.get
        [⟨"get_remote_file_content", "a.py"⟩]
        ⟨"", [⟨"call_1", "get_remote_file_content", "a.py"⟩]⟩).is_done = false
    ∧ (chat_with_agent (fun _ _ => "ok") (fun _ => 0) ([] : List (Message String)) Mode.get
        [⟨"get_remote_file_content", "a.py"⟩]
        ⟨"", [⟨"call_1", "get_remote_file_content", "a.py"⟩]⟩).previous_calls
      = [⟨"get_remote_file_content", "a.py"⟩] :=
  have h := c3_amended_duplicate_turn (fun _ _ => "ok") (fun _ => 0)
    ([] : List (Message String)) Mode.get [⟨"get_remote_file_content", "a.py"⟩] ""
    ⟨"call_1", "get_remote_file_content", "a.py"⟩ [] (by decide)
  ⟨h.1, h.2.1, h.2.2.1⟩

set_option maxRecDepth 4096 in
/-- Counterexample to claim C3 as stated: in a concrete duplicate turn the
appended corrective tool result is the fixed message of the source, which
contains no wording that offers picking a different action: the only
guidance it contains is to open the file path and update the diff
content. -/
theorem c3_counterexample :
    (chat_with_agent (fun _ _ => "ok") (fun _ => 0) ([] : List (Message String)) Mode.get
        [⟨"get_remote_file_content", "a.py"⟩]
        ⟨"", [⟨"call_1", "get_remote_file_content", "a.py"⟩]⟩).messages
      = [Message.assistant "" [⟨"call_1", "get_remote_file_content", "a.py"⟩],
         Message.tool "call_1" "get_remote_file_content"
           (duplicateCallMessage "get_remote_file_content")]
    ∧ hasSubstring (duplicateCallMessage "get_remote_file_content")
        "pick a different action" = false
    ∧ hasSubstring (duplicateCallMessage "get_remote_file_content")
        "different" = false
    ∧ hasSubstring (duplicateCallMessage "get_remote_file_content")
        "action" = false := by
  refine ⟨by decide, by decide, by decide, by decide⟩

/-- Claim C4: a turn executes at most the first requested tool call: the
executed records do not depend on the remaining requests, there is at most
one of them, and it is the first request; call_function likewise reads
only tool_calls[0]. -/
theorem c4_single_tool_per_turn {Args : Type} [DecidableEq Args]
    (tools_to_call : String → Args → String)
    (count_tokens : List (Message Args) → Nat)
    (messages : List (Message Args)) (mode : Mode)
    (previous_calls : List (ToolCallRecord Args)) (c : String)
    (tc : ToolCall Args) (rest1 rest2 : List (ToolCall Args))
    (funcs : String → Option (CallArgs → Except String String))
    (tc2 : ToolCall CallArgs) (more1 more2 : List (ToolCall CallArgs))
    (token : String) :
    (chat_with_agent tools_to_call count_tokens messages mode previous_calls
        ⟨c, tc :: rest1⟩).executed
      = (chat_with_agent tools_to_call count_tokens messages mode previous_calls
        ⟨c, tc :: rest2⟩).executed
    ∧ (chat_with_agent tools_to_call count_tokens messages mode previous_calls
        ⟨c, tc :: rest1⟩).executed.length ≤ 1
    ∧ (∀ cc ∈ (chat_with_agent tools_to_call count_tokens messages mode previous_calls
        ⟨c, tc :: rest1⟩).executed, cc = (⟨tc.name, tc.arguments⟩ : ToolCallRecord Args))
    ∧ call_function funcs (some (tc2 :: more1)) token
        = call_function funcs (some (tc2 :: more2)) token
    ∧ ∀ res, call_function funcs (some (tc2 :: more1)) token = .ok res → res.1 = tc2 := by
  refine ⟨?_, chat_with_agent_executed_len tools_to_call count_tokens messages mode
    previous_calls ⟨c, tc :: rest1⟩, ?_, rfl, ?_⟩
  · by_cases h : (⟨tc.name, tc.arguments⟩ : ToolCallRecord Args) ∈ previous_calls <;>
      simp [chat_with_agent, h]
  · by_cases h : (⟨tc.name, tc.arguments⟩ : ToolCallRecord Args) ∈ previous_calls <;>
      simp [chat_with_agent, h]
  · intro res hres
    simp only [call_function] at hres
    split at hres
    · exact absurd hres (by simp)
    · split at hres
      · exact absurd hres (by simp)
      · injection hres with h
        rw [← h]

/-- Claim C5: a turn with no tool request returns the history and the
dedup list unchanged, no tool name or arguments, done = false, and no
execution; only the token counts are computed. -/
theorem c5_empty_turn {Args : Type} [DecidableEq Args]
    (tools_to_call : String → Args → String)
    (count_tokens : List (Message Args) → Nat)
    (messages : List (Message Args)) (mode : Mode)
    (previous_calls : List (ToolCallRecord Args)) (c : String) :
    chat_with_agent tools_to_call count_tokens messages mode previous_calls ⟨c, []⟩
      = ⟨messages, previous_calls, none, none, count_tokens messages,
         count_tokens [Message.assistant c []], false, []⟩ := rfl

/-- Claim C6: in every turn the three events coincide: the records appended
to the dedup list are exactly the records executed, and done is true
exactly when a record was executed. -/
theorem c6_execute_append_done_coincide {Args : Type} [DecidableEq Args]
    (tools_to_call : String → Args → String)
    (count_tokens : List (Message Args) → Nat)
    (messages : List (Message Args)) (mode : Mode)
    (previous_calls : List (ToolCallRecord Args))
    (choice : AssistantMessage Args) :
    (chat_with_agent tools_to_call count_tokens messages mode previous_calls
        choice).previous_calls
      = previous_calls ++ (chat_with_agent tools_to_call count_tokens messages mode
        previous_calls choice).executed
    ∧ ((chat_with_agent tools_to_call count_tokens messages mode previous_calls
          choice).is_done = true
        ↔ (chat_with_agent tools_to_call count_tokens messages mode previous_calls
          choice).executed ≠ []) := by
  refine ⟨chat_with_agent_previous_calls_eq tools_to_call count_tokens messages mode
    previous_calls choice, ?_⟩
  obtain ⟨c, tcs⟩ := choice
  cases tcs with
  | nil => simp [chat_with_agent]
  | cons tc rest =>
    by_cases h : (⟨tc.name, tc.arguments⟩ : ToolCallRecord Args) ∈ previous_calls <;>
      simp [chat_with_agent, h]

/-- Claim C7: a turn that received a tool request appends exactly two
messages, the assistant tool-request message first and then the tool
result carrying the tool-call id, the tool name and the stringified
result; every earlier history entry is kept unchanged. -/
theorem c7_message_ordering {Args : Type} [DecidableEq Args]
    (tools_to_call : String → Args → String)
    (count_tokens : List (Message Args) → Nat)
    (messages : List (Message Args)) (mode : Mode)
    (previous_calls : List (ToolCallRecord Args)) (c : String)
    (tc : ToolCall Args) (rest : List (ToolCall Args)) :
    ∃ result_content : String,
      (chat_with_agent tools_to_call count_tokens messages mode previous_calls
          ⟨c, tc :: rest⟩).messages
        = messages ++ [Message.assistant c (tc :: rest),
            Message.tool tc.id tc.name result_content] := by
  by_cases h : (⟨tc.name, tc.arguments⟩ : ToolCallRecord Args) ∈ previous_calls
  · exact ⟨duplicateCallMessage tc.name, by simp [chat_with_agent, h]⟩
  · exact ⟨tools_to_call tc.name tc.arguments, by simp [chat_with_agent, h]⟩

/-- Claim C8: call_function fails with unknownTool when the requested name
is missing from the funcs registry (there is then no capability to run),
and wraps a failing capability result as toolExecutionError instead of
swallowing it. -/
theorem c8_unknown_tool_and_error_wrapping
    (funcs : String → Option (CallArgs → Except String String))
    (tc : ToolCall CallArgs) (rest : List (ToolCall CallArgs)) (token : String) :
    (funcs tc.name = none →
      call_function funcs (some (tc :: rest)) token
        = .error (.unknownTool tc.name))
    ∧ ∀ f e, funcs tc.name = some f →
        f (setTokenKey tc.arguments token) = .error e →
        call_function funcs (some (tc :: rest)) token
          = .error (.toolExecutionError e) := by
  constructor
  · intro h; simp [call_function, h]
  · intro f e hf he; simp [call_function, hf, he]

/-- Claim C9: when save_progress_started reports the issue as already in
progress, handle_gitauto posts the already-in-progress comment and returns
at once; its whole trace is the four preparatory operations plus that
comment, and it contains no agent run, no branch creation, no commit and
no pull-request creation. -/
theorem c9_already_in_progress_early_return (cfg : WebhookConfig) (env : GitautoEnv)
    (payload : LabeledPayload) :
    handle_gitauto cfg { env with save_progress_started := false } payload "comment"
      = ([.incrementRequestCount payload.installationId,
          .getInstallationAccessToken payload.installationId,
          .addReactionToIssue payload.ownerLogin payload.repoName payload.issueNumber "eyes",
          .saveProgressStarted (payload.ownerType.take 1 ++ "/" ++ payload.ownerLogin ++ "/"
            ++ payload.repoName ++ "#" ++ toString payload.issueNumber) payload.installationId,
          .createComment payload.ownerLogin payload.repoName payload.issueNumber
            "The issue is already in progress. Please wait for the previous request to complete."],
         some "The issue is already in progress.")
    ∧ ∀ a ∈ (handle_gitauto cfg { env with save_progress_started := false } payload
          "comment").1,
        a.isRunAssistant = false ∧ a.isCreateRemoteBranch = false
          ∧ a.isCommitChanges = false ∧ a.isCreatePullRequest = false := by
  refine ⟨rfl, ?_⟩
  intro a ha
  replace ha : a ∈
      [Action.incrementRequestCount payload.installationId,
       Action.getInstallationAccessToken payload.installationId,
       Action.addReactionToIssue payload.ownerLogin payload.repoName payload.issueNumber "eyes",
       Action.saveProgressStarted (payload.ownerType.take 1 ++ "/" ++ payload.ownerLogin ++ "/"
         ++ payload.repoName ++ "#" ++ toString payload.issueNumber) payload.installationId,
       Action.createComment payload.ownerLogin payload.repoName payload.issueNumber
         "The issue is already in progress. Please wait for the previous request to complete."] := ha
  simp only [List.mem_cons, List.not_mem_nil, or_false] at ha
  rcases ha with rfl | rfl | rfl | rfl | rfl <;> exact ⟨rfl, rfl, rfl, rfl⟩

/-- The page loop with an accumulator prepends the accumulator to the
compositional description of the remaining pages. -/
theorem get_pull_request_files_loop_eq :
    ∀ (pages : List (Except String (List PullFile))) (changes : List FileChange),
      get_pull_request_files_loop changes pages
        = (get_pull_request_files_described pages).map (fun cs => changes ++ cs) := by
  intro pages
  induction pages with
  | nil =>
    intro changes
    simp [get_pull_request_files_loop, get_pull_request_files_described]
  | cons p rest ih =>
    intro changes
    cases p with
    | error e =>
      simp [get_pull_request_files_loop, get_pull_request_files_described]
    | ok files =>
      cases files with
      | nil => simp [get_pull_request_files_loop, get_pull_request_files_described]
      | cons f fs =>
        simp only [get_pull_request_files_loop, get_pull_request_files_described,
          List.isEmpty_cons, if_neg (by simp : ¬false = true), ih]
        cases hd : get_pull_request_files_described rest <;>
          simp [List.append_assoc]

/-- Claim C10: get_pull_request_files computes exactly its claimed
description: one change per patch-bearing file in page order, skipping
files without a patch, stopping at the first empty page (returning the
changes so far), and None as soon as a page request raises. -/
theorem c10_get_pull_request_files_matches
    (pages : List (Except String (List PullFile))) (e : String)
    (rest : List (Except String (List PullFile))) :
    get_pull_request_files pages = get_pull_request_files_described pages
    ∧ get_pull_request_files (.error e :: rest) = none
    ∧ get_pull_request_files (.ok [] :: rest) = some [] := by
  refine ⟨?_, rfl, rfl⟩
  rw [get_pull_request_files, get_pull_request_files_loop_eq]
  cases h : get_pull_request_files_described pages <;> simp

end GitAuto
